import Mathlib

/-
Verification of the property-resolution and update-scheduling core of
three-mesh-ui (src/components/core/MeshUIComponent.js) against its
natural-language specification.

The JavaScript code is shallowly embedded: JS runtime values are modelled by
the inductive `JSVal` (with JS truthiness made explicit), a component's
attribute store is a total function from property names to `JSVal`
(`undefined` meaning "unset"), the host scene graph's parent chain is an
explicit list of ancestors (nearest parent first), and every externally
observable call made by a method (UpdateManager.register / requestUpdate,
FontLibrary delegation, console warnings, onSet callbacks) is recorded in an
explicit effect trace.  The process-wide default table (utils/Defaults.js)
is kept abstract as a function parameter `d : String → JSVal`, so theorems
hold for every default table.
-/

namespace MeshUI

/-- A JavaScript runtime value, as far as MeshUIComponent.js inspects one:
`undefined`, `null`, booleans, numbers (modelled as rationals), strings, and
opaque object references (textures, colors, fonts) identified by a tag. -/
inductive JSVal where
  | undefined
  | null
  | bool (b : Bool)
  | num (q : ℚ)
  | str (s : String)
  | obj (tag : Nat)
deriving DecidableEq

/-- JavaScript truthiness: `undefined`, `null`, `false`, `0` and the empty
string are falsy; every object is truthy. -/
def truthy : JSVal → Bool
  | JSVal.undefined => false
  | JSVal.null => false
  | JSVal.bool b => b
  | JSVal.num q => decide (q ≠ 0)
  | JSVal.str s => decide (s ≠ "")
  | JSVal.obj _ => true

theorem truthy_ne_undefined {v : JSVal} (h : truthy v = true) :
    v ≠ JSVal.undefined := by
  intro hv
  rw [hv] at h
  simp [truthy] at h

/-- A node of the host scene graph, as seen by the cascading lookup: its
attribute store (`this[propName]`, `undefined` when unset) and its `isUI`
tag. -/
structure NodeData where
  attrs : String → JSVal
  isUI : Bool

/-- Whether the head of an ancestor list is a UI node: the embedding of
`getUIParent()` returning a (truthy) node rather than `null`
(MeshUIComponent.js, `getUIParent`). -/
def headIsUI : List NodeData → Bool
  | [] => false
  | parent :: _ => parent.isUI

/-- Embedding of `_getProperty(propName)` (MeshUIComponent.js).  The chain
argument is the node's ancestor list, nearest parent first; the source code
is

  if ( this[ propName ] === undefined && this.getUIParent() ) {
    return this.parent._getProperty( propName )
  } else if ( this[ propName ] ) {
    return this[ propName ]
  }
  return DEFAULTS[ propName ];

Note the second branch tests JS truthiness of the stored value, not
definedness. -/
def getProperty (d : String → JSVal) (p : String) : List NodeData → JSVal
  | [] => JSVal.undefined
  | n :: anc =>
    if n.attrs p = JSVal.undefined ∧ headIsUI anc = true then
      getProperty d p anc
    else if truthy (n.attrs p) then
      n.attrs p
    else
      d p

----------------------------------------------------------------
-- Non-cascading getters (MeshUIComponent.js, "GETTERS WITH NO
-- PARENTS LOOKUP").  Each method is invoked on a node living in a
-- tree, so the embedding receives the ancestor chain, but the
-- source bodies read only `this`, never `this.parent`.
----------------------------------------------------------------

/-- `( !this.backgroundOpacity && this.backgroundOpacity !== 0 ) ?
DEFAULTS.backgroundOpacity : this.backgroundOpacity` -/
def getBackgroundOpacity (d : String → JSVal) (n : NodeData)
    (_anc : List NodeData) : JSVal :=
  if truthy (n.attrs "backgroundOpacity") = false ∧
      n.attrs "backgroundOpacity" ≠ JSVal.num 0 then
    d "backgroundOpacity"
  else n.attrs "backgroundOpacity"

/-- `this.backgroundColor || DEFAULTS.backgroundColor` -/
def getBackgroundColor (d : String → JSVal) (n : NodeData)
    (_anc : List NodeData) : JSVal :=
  if truthy (n.attrs "backgroundColor") then n.attrs "backgroundColor"
  else d "backgroundColor"

/-- `this.backgroundTexture || DEFAULTS.backgroundTexture` -/
def getBackgroundTexture (d : String → JSVal) (n : NodeData)
    (_anc : List NodeData) : JSVal :=
  if truthy (n.attrs "backgroundTexture") then n.attrs "backgroundTexture"
  else d "backgroundTexture"

/-- `this.alignContent || DEFAULTS.alignContent` -/
def getAlignContent (d : String → JSVal) (n : NodeData)
    (_anc : List NodeData) : JSVal :=
  if truthy (n.attrs "alignContent") then n.attrs "alignContent"
  else d "alignContent"

/-- `this.contentDirection || DEFAULTS.contentDirection` -/
def getContentDirection (d : String → JSVal) (n : NodeData)
    (_anc : List NodeData) : JSVal :=
  if truthy (n.attrs "contentDirection") then n.attrs "contentDirection"
  else d "contentDirection"

/-- `this.justifyContent || DEFAULTS.justifyContent` -/
def getJustifyContent (d : String → JSVal) (n : NodeData)
    (_anc : List NodeData) : JSVal :=
  if truthy (n.attrs "justifyContent") then n.attrs "justifyContent"
  else d "justifyContent"

/-- `(this.interLine === undefined) ? DEFAULTS.interLine : this.interLine` -/
def getInterLine (d : String → JSVal) (n : NodeData)
    (_anc : List NodeData) : JSVal :=
  if n.attrs "interLine" = JSVal.undefined then d "interLine"
  else n.attrs "interLine"

/-- `(this.offset === undefined) ? DEFAULTS.offset : this.offset` -/
def getOffset (d : String → JSVal) (n : NodeData)
    (_anc : List NodeData) : JSVal :=
  if n.attrs "offset" = JSVal.undefined then d "offset"
  else n.attrs "offset"

/-- `(this.backgroundSize === undefined) ? DEFAULTS.backgroundSize :
this.backgroundSize` -/
def getBackgroundSize (d : String → JSVal) (n : NodeData)
    (_anc : List NodeData) : JSVal :=
  if n.attrs "backgroundSize" = JSVal.undefined then d "backgroundSize"
  else n.attrs "backgroundSize"

/-- `(this.hiddenOverflow === undefined) ? DEFAULTS.hiddenOverflow :
this.hiddenOverflow` -/
def getHiddenOverflow (d : String → JSVal) (n : NodeData)
    (_anc : List NodeData) : JSVal :=
  if n.attrs "hiddenOverflow" = JSVal.undefined then d "hiddenOverflow"
  else n.attrs "hiddenOverflow"

/-- The ten intentionally non-cascading properties named by the spec. -/
def nonCascadingKeys : List String :=
  ["backgroundColor", "backgroundOpacity", "backgroundTexture",
   "backgroundSize", "alignContent", "contentDirection", "justifyContent",
   "interLine", "offset", "hiddenOverflow"]

----------------------------------------------------------------
-- Sample inputs shared by witnesses and counterexamples
----------------------------------------------------------------

/-- A sample default table mapping every property to the number 1. -/
def dOne : String → JSVal := fun _ => JSVal.num 1

/-- A UI node with no attribute overrides at all. -/
def emptyNode : NodeData := NodeData.mk (fun _ => JSVal.undefined) true

/-- A UI node whose only override is `fontSize = 0` (a defined, falsy
value). -/
def zeroFontNode : NodeData :=
  NodeData.mk
    (fun p => if p = "fontSize" then JSVal.num 0 else JSVal.undefined) true

/-- A UI node whose only override is `fontFamily = "arial"`. -/
def arialNode : NodeData :=
  NodeData.mk
    (fun p => if p = "fontFamily" then JSVal.str "arial" else JSVal.undefined)
    true

/-- A UI node whose only override is `backgroundColor = "red"`. -/
def redParent : NodeData :=
  NodeData.mk
    (fun p => if p = "backgroundColor" then JSVal.str "red"
      else JSVal.undefined) true

----------------------------------------------------------------
-- C1
----------------------------------------------------------------

/-- C1, counterexample: the claim says that after setting `fontSize = 0` (a
defined, falsy value) on a node, resolving `fontSize` on that node and on an
override-free child returns `0`.  In the code, `_getProperty`'s second
branch tests JS truthiness, so both resolutions fall through to the default
table instead (here the default is `1`, not the stored `0`). -/
theorem claim_C1_counterexample :
    zeroFontNode.attrs "fontSize" = JSVal.num 0 ∧
    zeroFontNode.isUI = true ∧
    emptyNode.attrs "fontSize" = JSVal.undefined ∧
    getProperty dOne "fontSize" [zeroFontNode] = JSVal.num 1 ∧
    getProperty dOne "fontSize" [emptyNode, zeroFontNode] = JSVal.num 1 ∧
    JSVal.num 1 ≠ JSVal.num 0 := by
  decide

/-- C1 (amended): for every cascading property `P` and every defined
*truthy* value `v`, after setting `node.P = v` the resolution of `P` on that
node returns `v`, and resolving `P` on a child of that node with no own
override also returns `v`.  (Falsy defined values such as `0` and the empty
string instead fall through to the process-wide default.) -/
theorem claim_C1 (d : String → JSVal) (p : String) (v : JSVal)
    (n c : NodeData) (anc : List NodeData) (hv : truthy v = true)
    (hn : n.attrs p = v) (hui : n.isUI = true)
    (hc : c.attrs p = JSVal.undefined) :
    getProperty d p (n :: anc) = v ∧ getProperty d p (c :: n :: anc) = v := by
  have hvu : v ≠ JSVal.undefined := truthy_ne_undefined hv
  have h1 : getProperty d p (n :: anc) = v := by
    simp [getProperty, hn, hvu, hv]
  have h2 : getProperty d p (c :: n :: anc) = getProperty d p (n :: anc) := by
    simp [getProperty, hc, headIsUI, hui, truthy]
  exact ⟨h1, h2.trans h1⟩

/-- C1 witness: concrete instance of the amended claim with
`fontFamily = "arial"`. -/
theorem claim_C1_witness :
    getProperty dOne "fontFamily" [arialNode] = JSVal.str "arial" ∧
    getProperty dOne "fontFamily" [emptyNode, arialNode]
      = JSVal.str "arial" :=
  claim_C1 dOne "fontFamily" (JSVal.str "arial") arialNode emptyNode []
    (by decide) (by decide) (by decide) (by decide)

----------------------------------------------------------------
-- C2
----------------------------------------------------------------

/-- C2: for each property in the non-cascading set separately, a node with
no own override for that property (whatever it overrides otherwise) gets
the process-wide default from the corresponding getter, and each getter's
result never depends on the ancestor chain (so an override set on any
ancestor cannot change it). -/
theorem claim_C2 (d : String → JSVal) (n : NodeData)
    (anc anc2 : List NodeData) :
    ((n.attrs "backgroundColor" = JSVal.undefined →
        getBackgroundColor d n anc = d "backgroundColor") ∧
      getBackgroundColor d n anc = getBackgroundColor d n anc2) ∧
    ((n.attrs "backgroundOpacity" = JSVal.undefined →
        getBackgroundOpacity d n anc = d "backgroundOpacity") ∧
      getBackgroundOpacity d n anc = getBackgroundOpacity d n anc2) ∧
    ((n.attrs "backgroundTexture" = JSVal.undefined →
        getBackgroundTexture d n anc = d "backgroundTexture") ∧
      getBackgroundTexture d n anc = getBackgroundTexture d n anc2) ∧
    ((n.attrs "backgroundSize" = JSVal.undefined →
        getBackgroundSize d n anc = d "backgroundSize") ∧
      getBackgroundSize d n anc = getBackgroundSize d n anc2) ∧
    ((n.attrs "alignContent" = JSVal.undefined →
        getAlignContent d n anc = d "alignContent") ∧
      getAlignContent d n anc = getAlignContent d n anc2) ∧
    ((n.attrs "contentDirection" = JSVal.undefined →
        getContentDirection d n anc = d "contentDirection") ∧
      getContentDirection d n anc = getContentDirection d n anc2) ∧
    ((n.attrs "justifyContent" = JSVal.undefined →
        getJustifyContent d n anc = d "justifyContent") ∧
      getJustifyContent d n anc = getJustifyContent d n anc2) ∧
    ((n.attrs "interLine" = JSVal.undefined →
        getInterLine d n anc = d "interLine") ∧
      getInterLine d n anc = getInterLine d n anc2) ∧
    ((n.attrs "offset" = JSVal.undefined →
        getOffset d n anc = d "offset") ∧
      getOffset d n anc = getOffset d n anc2) ∧
    ((n.attrs "hiddenOverflow" = JSVal.undefined →
        getHiddenOverflow d n anc = d "hiddenOverflow") ∧
      getHiddenOverflow d n anc = getHiddenOverflow d n anc2) := by
  refine ⟨⟨fun h => ?_, rfl⟩, ⟨fun h => ?_, rfl⟩, ⟨fun h => ?_, rfl⟩,
    ⟨fun h => ?_, rfl⟩, ⟨fun h => ?_, rfl⟩, ⟨fun h => ?_, rfl⟩,
    ⟨fun h => ?_, rfl⟩, ⟨fun h => ?_, rfl⟩, ⟨fun h => ?_, rfl⟩,
    ⟨fun h => ?_, rfl⟩⟩
  · simp [getBackgroundColor, h, truthy]
  · simp [getBackgroundOpacity, h, truthy]
  · simp [getBackgroundTexture, h, truthy]
  · simp [getBackgroundSize, h]
  · simp [getAlignContent, h, truthy]
  · simp [getContentDirection, h, truthy]
  · simp [getJustifyContent, h, truthy]
  · simp [getInterLine, h]
  · simp [getOffset, h]
  · simp [getHiddenOverflow, h]

/-- C2 witness: a node that overrides `backgroundColor` (only) still
resolves `interLine` to the default even under an overriding ancestor, and
the `backgroundColor` getter's result is invariant under a change of
ancestor chain. -/
theorem claim_C2_witness :
    getInterLine dOne redParent [redParent] = JSVal.num 1 ∧
    getBackgroundColor dOne redParent [redParent]
      = getBackgroundColor dOne redParent [] :=
  ⟨(claim_C2 dOne redParent [redParent] []).2.2.2.2.2.2.2.1.1 (by decide),
   (claim_C2 dOne redParent [redParent] []).1.2⟩

----------------------------------------------------------------
-- C3
----------------------------------------------------------------

/-- C3: for every cascading property `P` and every node with no own
override such that no ancestor on its UI-parent chain overrides `P` either,
`_getProperty` returns the process-wide default for `P`. -/
theorem claim_C3 (d : String → JSVal) (p : String) (n : NodeData)
    (anc : List NodeData) (hn : n.attrs p = JSVal.undefined)
    (hanc : ∀ m ∈ anc.takeWhile (fun m => m.isUI),
      m.attrs p = JSVal.undefined) :
    getProperty d p (n :: anc) = d p := by
  induction anc generalizing n with
  | nil => simp [getProperty, hn, headIsUI, truthy]
  | cons q rest ih =>
    by_cases hq : q.isUI = true
    · have hcond : n.attrs p = JSVal.undefined ∧
          headIsUI (q :: rest) = true := ⟨hn, by simp [headIsUI, hq]⟩
      have hstep : getProperty d p (n :: q :: rest)
          = getProperty d p (q :: rest) := by
        simp only [getProperty]
        rw [if_pos hcond]
      rw [hstep]
      have hq1 : q.attrs p = JSVal.undefined := by
        apply hanc
        simp [List.takeWhile_cons, hq]
      apply ih q hq1
      intro m hm
      apply hanc
      simp only [List.takeWhile_cons, hq, if_pos]
      exact List.mem_cons_of_mem q hm
    · have hfalse : headIsUI (q :: rest) = false := by
        simp [headIsUI]
        exact Bool.not_eq_true q.isUI ▸ hq
      simp [getProperty, hn, hfalse, truthy]

/-- C3 witness: a chain of two override-free UI nodes resolves `fontSize`
to the default. -/
theorem claim_C3_witness :
    getProperty dOne "fontSize" [emptyNode, emptyNode] = JSVal.num 1 :=
  claim_C3 dOne "fontSize" emptyNode [emptyNode] (by decide) (by decide)

----------------------------------------------------------------
-- The `set` / `setupState` / `setState` model.
--
-- A component is a `UINode`: its attribute store, its duck-typed
-- role tags, its state table and its current state.  Every call a
-- method makes to the outside world (UpdateManager, FontLibrary,
-- console, onSet callbacks) is recorded in an `Effect` trace, in
-- call order.
----------------------------------------------------------------

/-- A state bundle registered by `setupState`: the optional attribute map
(`options.attributes`) and whether an `onSet` callback was provided. -/
structure StateBundle where
  attributes : Option (List (String × JSVal))
  onSet : Bool
deriving DecidableEq

/-- A component node: attribute store, role tags, state table, current
state.  Mirrors the object built by `MeshUIComponent()` plus the duck-typed
role tags (`isText`, `isInlineBlock`, `isBlock`) added by the concrete
component kinds. -/
structure UINode where
  attrs : String → JSVal
  isUI : Bool
  isText : Bool
  isInlineBlock : Bool
  isBlock : Bool
  states : List (String × StateBundle)
  currentState : Option String

/-- An externally observable call made by a component method, in call
order. -/
inductive Effect where
  | register
  | updateSelf (parsing layout inner : Bool)
  | updateHighest (parsing layout inner : Bool)
  | setFontFamily (v : JSVal)
  | setFontTexture (v : JSVal)
  | warn (state : String)
  | onSetInvoked
deriving DecidableEq

/-- The three update flags accumulated by `set`'s classification loop.
JS initializes them to `undefined` (falsy) and only ever assigns `true`;
they are consumed in boolean positions, so `Bool` starting at `false` is
faithful. -/
structure SetFlags where
  parsing : Bool
  layout : Bool
  inner : Bool
deriving DecidableEq

/-- Write `this[k] = v` into the attribute store. -/
def setAttr (a : String → JSVal) (k : String) (v : JSVal) :
    String → JSVal :=
  fun p => if p = k then v else a p

/-- A copy of the node with `this[k] = v` written. -/
def withAttr (n : UINode) (k : String) (v : JSVal) : UINode :=
  UINode.mk (setAttr n.attrs k v) n.isUI n.isText n.isInlineBlock n.isBlock
    n.states n.currentState

/-- The layout-only keys of `set`'s switch. -/
def layoutKeys : List String :=
  ["fontSize", "interLine", "margin", "contentDirection", "justifyContent",
   "alignContent", "textType", "borderRadius", "backgroundSize", "src"]

/-- The inner-only keys of `set`'s switch. -/
def innerKeys : List String :=
  ["fontColor", "fontOpacity", "offset", "backgroundColor",
   "backgroundOpacity", "backgroundTexture"]

/-- One iteration of `set`'s classification switch on key `k` with value
`v` (MeshUIComponent.js, `set`): writes the attribute and accumulates the
update flags; keys matching no case (including `fontFamily` and
`fontTexture`) leave both the node and the flags untouched. -/
def applyProp (n : UINode) (fl : SetFlags) (k : String) (v : JSVal) :
    UINode × SetFlags :=
  if k = "content" then
    (withAttr n k v,
     SetFlags.mk (if n.isText then true else fl.parsing) true fl.inner)
  else if k = "width" ∨ k = "height" ∨ k = "padding" then
    (withAttr n k v,
     SetFlags.mk (if n.isInlineBlock then true else fl.parsing) true
       fl.inner)
  else if k ∈ layoutKeys then
    (withAttr n k v, SetFlags.mk fl.parsing true fl.inner)
  else if k ∈ innerKeys then
    (withAttr n k v, SetFlags.mk fl.parsing fl.layout true)
  else if k = "hiddenOverflow" then
    (withAttr n k v, fl)
  else
    (n, fl)

/-- Fold step over the ordered keys of `options`. -/
def applyStep (acc : UINode × SetFlags) (kv : String × JSVal) :
    UINode × SetFlags :=
  applyProp acc.1 acc.2 kv.1 kv.2

/-- `set`'s classification loop over `Object.keys(options)` in insertion
order. -/
def applyOptions (n : UINode) (opts : List (String × JSVal)) :
    UINode × SetFlags :=
  List.foldl applyStep (n, SetFlags.mk false false false) opts

/-- `options[k]`: the first binding of `k`, or `undefined` when absent. -/
def lookupJS : List (String × JSVal) → String → JSVal
  | [], _ => JSVal.undefined
  | kv :: rest, k => if kv.1 = k then kv.2 else lookupJS rest k

/-- Embedding of `set(options)` (MeshUIComponent.js).  `options` is `none`
for a missing/falsy argument, otherwise the ordered key/value list of the
options object.  The JS abort test `JSON.stringify(options) ===
JSON.stringify({})` holds exactly when every value is `undefined`
(JSON.stringify drops undefined-valued keys), which includes the empty
object.  Returns the mutated node and the ordered effect trace. -/
def set (n : UINode) (options : Option (List (String × JSVal))) :
    UINode × List Effect :=
  match options with
  | none => (n, [Effect.register])
  | some opts =>
    if ∀ kv ∈ opts, kv.2 = JSVal.undefined then (n, [Effect.register])
    else
      let r := applyOptions n opts
      let famV := lookupJS opts "fontFamily"
      let texV := lookupJS opts "fontTexture"
      let layoutFinal :=
        if truthy texV then false
        else if truthy famV then false
        else r.2.layout
      (r.1,
        [Effect.register] ++
        (if truthy famV then [Effect.setFontFamily famV] else []) ++
        (if truthy texV then [Effect.setFontTexture texV] else []) ++
        [Effect.updateSelf r.2.parsing layoutFinal r.2.inner] ++
        (if layoutFinal then [Effect.updateHighest false true false]
         else []))

/-- Embedding of `setupState(options)`: registers/overwrites the bundle
for the state name (lookup finds the most recent binding first). -/
def setupState (n : UINode) (st : String) (b : StateBundle) : UINode :=
  UINode.mk n.attrs n.isUI n.isText n.isInlineBlock n.isBlock
    ((st, b) :: n.states) n.currentState

/-- The own keys registered on the `states` table via `setupState`
(shadowing earlier bindings, like JS own-property assignment). -/
def lookupState : List (String × StateBundle) → String → Option StateBundle
  | [], _ => none
  | kv :: rest, k => if kv.1 = k then some kv.2 else lookupState rest k

/-- The own property names of `Object.prototype`, inherited by every plain
object literal such as the `states: {}` table. -/
def objectProtoKeys : List String :=
  ["constructor", "hasOwnProperty", "isPrototypeOf", "propertyIsEnumerable",
   "toLocaleString", "toString", "valueOf", "__proto__", "__defineGetter__",
   "__defineSetter__", "__lookupGetter__", "__lookupSetter__"]

/-- `this.states[ state ]`: JS property lookup on the object literal
`states: {}` finds own keys first, then falls through to the members
inherited from `Object.prototype` (truthy function/object values).  Reading
`.onSet` or `.attributes` on such an inherited member yields `undefined`
(falsy), so an inherited member behaves exactly like the bundle with no
attributes and no `onSet`. -/
def lookupStateJS (states : List (String × StateBundle)) (k : String) :
    Option StateBundle :=
  match lookupState states k with
  | some b => some b
  | none =>
    if k ∈ objectProtoKeys then some (StateBundle.mk none false) else none

/-- A copy of the node with `this.currentState = state`. -/
def withCurrentState (n : UINode) (st : String) : UINode :=
  UINode.mk n.attrs n.isUI n.isText n.isInlineBlock n.isBlock n.states
    (some st)

/-- Embedding of `setState(state)` (MeshUIComponent.js): warn and return
when `this.states[ state ]` is falsy, return silently when the state is
already current, otherwise transition, invoke `onSet` if present, and
apply the bundle's attributes through `set`.  Note `this.states[ state ]`
is JS property lookup (`lookupStateJS`): a name colliding with an
`Object.prototype` member is truthy even when never registered. -/
def setState (n : UINode) (state : String) : UINode × List Effect :=
  match lookupStateJS n.states state with
  | none => (n, [Effect.warn state])
  | some saved =>
    if n.currentState = some state then (n, [])
    else
      let n1 := withCurrentState n state
      let onSetEff := if saved.onSet then [Effect.onSetInvoked] else []
      match saved.attributes with
      | some attrList =>
        let r := set n1 (some attrList)
        (r.1, onSetEff ++ r.2)
      | none => (n1, onSetEff)

theorem lookupStateJS_of_registered {states : List (String × StateBundle)}
    {k : String} {b : StateBundle} (h : lookupState states k = some b) :
    lookupStateJS states k = some b := by
  rw [lookupStateJS, h]

----------------------------------------------------------------
-- Helper lemmas about `applyProp` / `applyOptions` / `set`
----------------------------------------------------------------

/-- All keys that `set`'s switch can write into the node. -/
def settableKeys : List String :=
  "content" :: "width" :: "height" :: "padding" ::
    (layoutKeys ++ innerKeys ++ ["hiddenOverflow"])

theorem withAttr_attrs_ne (n : UINode) (k : String) (v : JSVal)
    (q : String) (h : q ≠ k) : (withAttr n k v).attrs q = n.attrs q := by
  simp [withAttr, setAttr, h]

theorem applyProp_fst (n : UINode) (fl : SetFlags) (k : String)
    (v : JSVal) :
    ((applyProp n fl k v).1 = withAttr n k v ∧ k ∈ settableKeys) ∨
      (applyProp n fl k v).1 = n := by
  unfold applyProp
  by_cases h1 : k = "content"
  · rw [if_pos h1]
    exact Or.inl ⟨rfl, by rw [h1]; decide⟩
  rw [if_neg h1]
  by_cases h2 : k = "width" ∨ k = "height" ∨ k = "padding"
  · rw [if_pos h2]
    refine Or.inl ⟨rfl, ?_⟩
    rcases h2 with h | h | h <;> rw [h] <;> decide
  rw [if_neg h2]
  by_cases h3 : k ∈ layoutKeys
  · rw [if_pos h3]
    exact Or.inl ⟨rfl, (by decide : ∀ x ∈ layoutKeys, x ∈ settableKeys) k h3⟩
  rw [if_neg h3]
  by_cases h4 : k ∈ innerKeys
  · rw [if_pos h4]
    exact Or.inl ⟨rfl, (by decide : ∀ x ∈ innerKeys, x ∈ settableKeys) k h4⟩
  rw [if_neg h4]
  by_cases h5 : k = "hiddenOverflow"
  · rw [if_pos h5]
    exact Or.inl ⟨rfl, by rw [h5]; decide⟩
  rw [if_neg h5]
  exact Or.inr rfl

theorem applyProp_attrs_preserved (n : UINode) (fl : SetFlags) (k : String)
    (v : JSVal) (q : String) (hq : q ∉ settableKeys) :
    ((applyProp n fl k v).1).attrs q = n.attrs q := by
  rcases applyProp_fst n fl k v with ⟨he, hk⟩ | he
  · rw [he]
    exact withAttr_attrs_ne n k v q (fun hqe => hq (hqe ▸ hk))
  · rw [he]

theorem applyOptions_attrs_preserved (opts : List (String × JSVal))
    (n : UINode) (q : String) (hq : q ∉ settableKeys) :
    ((applyOptions n opts).1).attrs q = n.attrs q := by
  suffices h : ∀ acc : UINode × SetFlags,
      ((List.foldl applyStep acc opts).1).attrs q = (acc.1).attrs q by
    exact h (n, SetFlags.mk false false false)
  induction opts with
  | nil => intro acc; rfl
  | cons kv rest ih =>
    intro acc
    rw [List.foldl_cons, ih (applyStep acc kv)]
    exact applyProp_attrs_preserved acc.1 acc.2 kv.1 kv.2 q hq

theorem applyProp_states (n : UINode) (fl : SetFlags) (k : String)
    (v : JSVal) : ((applyProp n fl k v).1).states = n.states := by
  rcases applyProp_fst n fl k v with ⟨he, _⟩ | he
  · rw [he]
    rfl
  · rw [he]

theorem applyProp_currentState (n : UINode) (fl : SetFlags) (k : String)
    (v : JSVal) :
    ((applyProp n fl k v).1).currentState = n.currentState := by
  rcases applyProp_fst n fl k v with ⟨he, _⟩ | he
  · rw [he]
    rfl
  · rw [he]

theorem applyOptions_states (opts : List (String × JSVal)) (n : UINode) :
    ((applyOptions n opts).1).states = n.states := by
  suffices h : ∀ acc : UINode × SetFlags,
      ((List.foldl applyStep acc opts).1).states = (acc.1).states by
    exact h (n, SetFlags.mk false false false)
  induction opts with
  | nil => intro acc; rfl
  | cons kv rest ih =>
    intro acc
    rw [List.foldl_cons, ih (applyStep acc kv)]
    exact applyProp_states acc.1 acc.2 kv.1 kv.2

theorem applyOptions_currentState (opts : List (String × JSVal))
    (n : UINode) :
    ((applyOptions n opts).1).currentState = n.currentState := by
  suffices h : ∀ acc : UINode × SetFlags,
      ((List.foldl applyStep acc opts).1).currentState
        = (acc.1).currentState by
    exact h (n, SetFlags.mk false false false)
  induction opts with
  | nil => intro acc; rfl
  | cons kv rest ih =>
    intro acc
    rw [List.foldl_cons, ih (applyStep acc kv)]
    exact applyProp_currentState acc.1 acc.2 kv.1 kv.2

theorem set_result_node (n : UINode) (opts : List (String × JSVal))
    (hab : ¬ ∀ kv ∈ opts, kv.2 = JSVal.undefined) :
    (set n (some opts)).1 = (applyOptions n opts).1 := by
  simp only [set]
  rw [if_neg hab]

theorem set_node_states (n : UINode)
    (o : Option (List (String × JSVal))) :
    ((set n o).1).states = n.states := by
  cases o with
  | none => rfl
  | some opts =>
    by_cases hab : ∀ kv ∈ opts, kv.2 = JSVal.undefined
    · simp only [set]
      rw [if_pos hab]
    · rw [set_result_node n opts hab]
      exact applyOptions_states opts n

theorem set_node_currentState (n : UINode)
    (o : Option (List (String × JSVal))) :
    ((set n o).1).currentState = n.currentState := by
  cases o with
  | none => rfl
  | some opts =>
    by_cases hab : ∀ kv ∈ opts, kv.2 = JSVal.undefined
    · simp only [set]
      rw [if_pos hab]
    · rw [set_result_node n opts hab]
      exact applyOptions_currentState opts n

theorem set_count_onSetInvoked (n : UINode)
    (o : Option (List (String × JSVal))) :
    ((set n o).2).count Effect.onSetInvoked = 0 := by
  cases o with
  | none =>
    show List.count Effect.onSetInvoked [Effect.register] = 0
    decide
  | some opts =>
    by_cases hab : ∀ kv ∈ opts, kv.2 = JSVal.undefined
    · simp only [set]
      rw [if_pos hab]
      show List.count Effect.onSetInvoked [Effect.register] = 0
      decide
    · simp only [set]
      rw [if_neg hab]
      simp only [List.count_append]
      split_ifs <;> simp [List.count_cons, List.count_nil]

theorem set_count_register (n : UINode)
    (o : Option (List (String × JSVal))) :
    ((set n o).2).count Effect.register = 1 := by
  cases o with
  | none =>
    show List.count Effect.register [Effect.register] = 1
    decide
  | some opts =>
    by_cases hab : ∀ kv ∈ opts, kv.2 = JSVal.undefined
    · simp only [set]
      rw [if_pos hab]
      show List.count Effect.register [Effect.register] = 1
      decide
    · simp only [set]
      rw [if_neg hab]
      simp only [List.count_append]
      split_ifs <;> simp [List.count_cons, List.count_nil]

theorem lookup_truthy_exists (opts : List (String × JSVal)) (k : String)
    (h : truthy (lookupJS opts k) = true) :
    ∃ kv ∈ opts, kv.2 ≠ JSVal.undefined := by
  induction opts with
  | nil => simp [lookupJS, truthy] at h
  | cons kv rest ih =>
    simp only [lookupJS] at h
    by_cases hk : kv.1 = k
    · rw [if_pos hk] at h
      exact ⟨kv, List.mem_cons_self kv rest, truthy_ne_undefined h⟩
    · rw [if_neg hk] at h
      obtain ⟨kv2, hm, hne⟩ := ih h
      exact ⟨kv2, List.mem_cons_of_mem kv hm, hne⟩

----------------------------------------------------------------
-- Shared concrete inputs for the `set` / `setState` claims
----------------------------------------------------------------

/-- A freshly constructed component: no overrides, no states, no current
state. -/
def plainNode : UINode :=
  UINode.mk (fun _ => JSVal.undefined) true false false false [] none

/-- Options carrying a *falsy* `fontFamily` (the empty string) together
with a layout-classified key. -/
def opts4 : List (String × JSVal) :=
  [("fontFamily", JSVal.str ""), ("height", JSVal.num 1)]

/-- Options carrying a truthy `fontFamily` and an inner-classified key. -/
def opts4w : List (String × JSVal) :=
  [("fontFamily", JSVal.str "arial"), ("fontColor", JSVal.str "blue")]

/-- Options carrying a single layout-classified key. -/
def opts9 : List (String × JSVal) := [("width", JSVal.num 2)]

----------------------------------------------------------------
-- C4
----------------------------------------------------------------

/-- C4, counterexample: the claim says that whenever `options` contains
`fontFamily`, the layout flag is forced to false, no highest-ancestor
layout request happens, and resolution is delegated to the font bridge.
The code tests `if (options.fontFamily)` — JS truthiness, not presence —
so for `options = {fontFamily: "", height: 1}` (fontFamily present but
falsy) no delegation happens, the layout flag stays `true`, and the
highest-ancestor layout update is requested. -/
theorem claim_C4_counterexample :
    lookupJS opts4 "fontFamily" = JSVal.str "" ∧
    (set plainNode (some opts4)).2 =
      [Effect.register, Effect.updateSelf false true false,
       Effect.updateHighest false true false] ∧
    Effect.setFontFamily (JSVal.str "") ∉ (set plainNode (some opts4)).2 := by
  decide

/-- C4 (amended): for every call to `set(options)` in which `options`
carries a *truthy* `fontFamily` or `fontTexture` value, the layout flag
accumulated from the other keys is forced to false before `requestUpdate`
is called (so no highest-ancestor layout request happens synchronously),
resolution is delegated to the FontLibrary bridge, and the
`fontFamily`/`fontTexture` attribute is not written into the node by `set`
itself. -/
theorem claim_C4 (n : UINode) (opts : List (String × JSVal))
    (_hnd : (opts.map Prod.fst).Nodup)
    (hft : truthy (lookupJS opts "fontFamily") = true ∨
      truthy (lookupJS opts "fontTexture") = true) :
    (set n (some opts)).2 =
      [Effect.register] ++
      (if truthy (lookupJS opts "fontFamily") then
        [Effect.setFontFamily (lookupJS opts "fontFamily")] else []) ++
      (if truthy (lookupJS opts "fontTexture") then
        [Effect.setFontTexture (lookupJS opts "fontTexture")] else []) ++
      [Effect.updateSelf (applyOptions n opts).2.parsing false
        (applyOptions n opts).2.inner] ∧
    ((set n (some opts)).1).attrs "fontFamily" = n.attrs "fontFamily" ∧
    ((set n (some opts)).1).attrs "fontTexture" = n.attrs "fontTexture" := by
  have hab : ¬ ∀ kv ∈ opts, kv.2 = JSVal.undefined := by
    intro hall
    rcases hft with h | h
    · obtain ⟨kv, hm, hne⟩ := lookup_truthy_exists opts "fontFamily" h
      exact hne (hall kv hm)
    · obtain ⟨kv, hm, hne⟩ := lookup_truthy_exists opts "fontTexture" h
      exact hne (hall kv hm)
  refine ⟨?_, ?_, ?_⟩
  · simp only [set]
    rw [if_neg hab]
    rcases hft with h | h
    · cases ht : truthy (lookupJS opts "fontTexture") <;> simp [h, ht]
    · simp [h]
  · rw [set_result_node n opts hab]
    exact applyOptions_attrs_preserved opts n "fontFamily" (by decide)
  · rw [set_result_node n opts hab]
    exact applyOptions_attrs_preserved opts n "fontTexture" (by decide)

/-- C4 witness: `set({fontFamily: "arial", fontColor: "blue"})` delegates
to the bridge, requests only an inner update, and leaves `fontFamily`
unset on the node. -/
theorem claim_C4_witness :
    (set plainNode (some opts4w)).2 =
      [Effect.register, Effect.setFontFamily (JSVal.str "arial"),
       Effect.updateSelf false false true] ∧
    ((set plainNode (some opts4w)).1).attrs "fontFamily"
      = plainNode.attrs "fontFamily" ∧
    ((set plainNode (some opts4w)).1).attrs "fontTexture"
      = plainNode.attrs "fontTexture" := by
  have h := claim_C4 plainNode opts4w (by decide) (Or.inl (by decide))
  exact h

----------------------------------------------------------------
-- C9
----------------------------------------------------------------

/-- C9: for every `set(options)` call that is not aborted and carries no
(truthy) `fontFamily`/`fontTexture`, if the classification loop accumulated
a true layout flag then after the self `requestUpdate` an additional
layout-only update (parsing=false, layout=true, inner=false) is requested
on the highest ancestor; if the layout flag is false, no highest-ancestor
request is made. -/
theorem claim_C9 (n : UINode) (opts : List (String × JSVal))
    (_hnd : (opts.map Prod.fst).Nodup)
    (hab : ¬ ∀ kv ∈ opts, kv.2 = JSVal.undefined)
    (hfam : lookupJS opts "fontFamily" = JSVal.undefined)
    (htex : lookupJS opts "fontTexture" = JSVal.undefined) :
    ((applyOptions n opts).2.layout = true →
      (set n (some opts)).2 =
        [Effect.register,
         Effect.updateSelf (applyOptions n opts).2.parsing true
           (applyOptions n opts).2.inner,
         Effect.updateHighest false true false]) ∧
    ((applyOptions n opts).2.layout = false →
      (set n (some opts)).2 =
        [Effect.register,
         Effect.updateSelf (applyOptions n opts).2.parsing false
           (applyOptions n opts).2.inner]) := by
  constructor <;> intro hl <;> simp only [set] <;> rw [if_neg hab] <;>
    simp [hfam, htex, truthy, hl]

/-- C9 witness: `set({width: 2})` accumulates a layout flag and requests
the extra highest-ancestor layout-only update. -/
theorem claim_C9_witness :
    (set plainNode (some opts9)).2 =
      [Effect.register, Effect.updateSelf false true false,
       Effect.updateHighest false true false] :=
  (claim_C9 plainNode opts9 (by decide) (by decide) (by decide)
    (by decide)).1 (by decide)

----------------------------------------------------------------
-- C10
----------------------------------------------------------------

/-- C10: calling `set` with a missing or empty options object still
registers the node with the update manager (registration precedes the
abort check), and that registration is the only effect: the node is
returned unchanged and no update is requested. -/
theorem claim_C10 (n : UINode) :
    set n none = (n, [Effect.register]) ∧
    set n (some []) = (n, [Effect.register]) := by
  refine ⟨rfl, ?_⟩
  simp [set]

----------------------------------------------------------------
-- C7
----------------------------------------------------------------

/-- C7: the claim (and the spec's error contract) says every name never
registered via `setupState` yields a warning with `currentState` left
unchanged.  The code reads `this.states[ state ]` on a plain object
literal, so a never-registered name that collides with an inherited
`Object.prototype` member — here `"toString"` — makes `savedState` a
truthy function: the warning branch is skipped and `this.currentState =
state` executes silently (the inherited member has no `onSet` or
`attributes`, so nothing else happens).  Evaluation of the embedding at
that failing input: no warning, an empty effect trace, and `currentState`
mutated from `none` to `"toString"`. -/
theorem claim_C7 :
    lookupState plainNode.states "toString" = none ∧
    plainNode.currentState = none ∧
    (setState plainNode "toString").2 = [] ∧
    Effect.warn "toString" ∉ (setState plainNode "toString").2 ∧
    (setState plainNode "toString").1.currentState = some "toString" := by
  decide

----------------------------------------------------------------
-- C8
----------------------------------------------------------------

/-- The state bundle used in the C8 inputs: attributes `{width: 1}` plus
an `onSet` callback. -/
def bundle8 : StateBundle :=
  StateBundle.mk (some [("width", JSVal.num 1)]) true

/-- A node already in state `"hovered"`, with `"hovered"` registered. -/
def hoveredNode : UINode :=
  UINode.mk (fun _ => JSVal.undefined) true false false false
    [("hovered", bundle8)] (some "hovered")

/-- A node with `"hovered"` registered but not current. -/
def freshNode : UINode :=
  UINode.mk (fun _ => JSVal.undefined) true false false false
    [("hovered", bundle8)] none

/-- C8, counterexample: the claim says that for *every* node and every
registered state `s`, two consecutive `setState(s)` calls produce the
observable side effects exactly once.  For a node whose `currentState`
already equals `s` (here reached by an earlier transition), both calls are
no-ops: `onSet` runs zero times, not once. -/
theorem claim_C8_counterexample :
    lookupState hoveredNode.states "hovered" = some bundle8 ∧
    bundle8.onSet = true ∧
    (setState hoveredNode "hovered").2 = [] ∧
    (setState (setState hoveredNode "hovered").1 "hovered").2 = [] ∧
    ((setState hoveredNode "hovered").2 ++
      (setState (setState hoveredNode "hovered").1 "hovered").2).count
        Effect.onSetInvoked = 0 := by
  decide

theorem setState_rerun (m : UINode) (s : String) (b : StateBundle)
    (hb : lookupState m.states s = some b)
    (hc : m.currentState = some s) :
    setState m s = (m, []) := by
  simp [setState, lookupStateJS_of_registered hb, hc]

/-- C8 (amended): for every node whose `currentState` differs from the
registered state `s` beforehand, calling `setState(s)` twice consecutively
with no intervening `set` produces the observable side effects exactly
once: the second call returns without any side effect (and without
changing the node) because `s` already equals `currentState`; `onSet` runs
exactly once (if the bundle has one) and the bundle's attributes are
applied through `set` exactly once (if present).  When `currentState`
already equals `s`, both calls are no-ops. -/
theorem claim_C8 (n : UINode) (s : String) (b : StateBundle)
    (hb : lookupState n.states s = some b)
    (hc : ¬ n.currentState = some s) :
    (setState (setState n s).1 s).2 = [] ∧
    (setState (setState n s).1 s).1 = (setState n s).1 ∧
    ((setState n s).2 ++ (setState (setState n s).1 s).2).count
        Effect.onSetInvoked = (if b.onSet then 1 else 0) ∧
    ((setState n s).2 ++ (setState (setState n s).1 s).2).count
        Effect.register = (if b.attributes.isSome then 1 else 0) := by
  have hr1 : setState n s =
      (match b.attributes with
       | some attrList =>
         ((set (withCurrentState n s) (some attrList)).1,
          (if b.onSet then [Effect.onSetInvoked] else []) ++
            (set (withCurrentState n s) (some attrList)).2)
       | none =>
         (withCurrentState n s,
          if b.onSet then [Effect.onSetInvoked] else [])) := by
    simp [setState, lookupStateJS_of_registered hb, hc]
  have hstates : (setState n s).1.states = n.states := by
    rw [hr1]
    cases hattr : b.attributes with
    | none => rfl
    | some attrList =>
      show ((set (withCurrentState n s) (some attrList)).1).states = n.states
      rw [set_node_states]
      rfl
  have hcur : (setState n s).1.currentState = some s := by
    rw [hr1]
    cases hattr : b.attributes with
    | none => rfl
    | some attrList =>
      show ((set (withCurrentState n s) (some attrList)).1).currentState
        = some s
      rw [set_node_currentState]
      rfl
  have hb2 : lookupState ((setState n s).1).states s = some b := by
    rw [hstates]
    exact hb
  have h2 : setState (setState n s).1 s = ((setState n s).1, []) := by
    exact setState_rerun (setState n s).1 s b hb2 hcur
  refine ⟨by rw [h2], by rw [h2], ?_, ?_⟩
  · rw [h2]
    simp only [List.append_nil]
    rw [hr1]
    cases hattr : b.attributes with
    | none =>
      show (if b.onSet then [Effect.onSetInvoked] else []).count
        Effect.onSetInvoked = if b.onSet then 1 else 0
      cases b.onSet <;> decide
    | some attrList =>
      show ((if b.onSet then [Effect.onSetInvoked] else []) ++
        (set (withCurrentState n s) (some attrList)).2).count
          Effect.onSetInvoked = if b.onSet then 1 else 0
      rw [List.count_append, set_count_onSetInvoked]
      cases b.onSet <;> decide
  · rw [h2]
    simp only [List.append_nil]
    rw [hr1]
    cases hattr : b.attributes with
    | none =>
      show (if b.onSet then [Effect.onSetInvoked] else []).count
        Effect.register = if (Option.none : Option (List (String × JSVal))).isSome
          then 1 else 0
      cases b.onSet <;> decide
    | some attrList =>
      show ((if b.onSet then [Effect.onSetInvoked] else []) ++
        (set (withCurrentState n s) (some attrList)).2).count
          Effect.register = if (some attrList).isSome then 1 else 0
      rw [List.count_append, set_count_register]
      cases b.onSet <;> simp

/-- C8 witness: a fresh node transitioning to `"hovered"` twice runs
`onSet` exactly once and applies the bundle attributes (one `set`
registration) exactly once; the second call is a no-op. -/
theorem claim_C8_witness :
    (setState (setState freshNode "hovered").1 "hovered").2 = [] ∧
    (setState (setState freshNode "hovered").1 "hovered").1
      = (setState freshNode "hovered").1 ∧
    ((setState freshNode "hovered").2 ++
      (setState (setState freshNode "hovered").1 "hovered").2).count
        Effect.onSetInvoked = 1 ∧
    ((setState freshNode "hovered").2 ++
      (setState (setState freshNode "hovered").1 "hovered").2).count
        Effect.register = 1 :=
  claim_C8 freshNode "hovered" bundle8 (by decide) (by decide)

----------------------------------------------------------------
-- C5: the font-resolution callbacks `_updateFontFamily` /
-- `_updateFontTexture`.
--
-- The descendant walk uses the host graph's visit-subtree
-- primitive (THREE.Object3D.traverse: callback on the node itself,
-- then on each child's subtree, preorder).  The subtree is
-- modelled as a tree of node identities tagged with `isUI`; the
-- ancestors above the node as a list of (identity, isUI) pairs,
-- nearest parent first.  Each `update(...)` call made during a
-- callback is recorded as a `NodeUpdate` against the identity of
-- the node it targets, in call order.
----------------------------------------------------------------

/-- One `update(parsing, layout, inner)` request recorded against a node
identity. -/
inductive NodeUpdate where
  | upd (id : Nat) (parsing layout inner : Bool)
deriving DecidableEq

mutual

/-- A subtree of the host scene graph: node identity, `isUI` tag,
children. -/
inductive UITree where
  | node (id : Nat) (isUI : Bool) (children : UIForest)

/-- An ordered list of child subtrees. -/
inductive UIForest where
  | nil
  | cons (t : UITree) (ts : UIForest)

end

/-- The identity of a subtree's root. -/
def rootId : UITree → Nat
  | UITree.node i _ _ => i

mutual

/-- The update requests issued by `this.traverse( (child)=> { if
( child.isUI ) child.update( true, true, false ); } )`: preorder over the
subtree, the node itself included, skipping non-UI nodes. -/
def traverseUpdates : UITree → List NodeUpdate
  | UITree.node i ui cs =>
    (if ui then [NodeUpdate.upd i true true false] else []) ++
      forestUpdates cs

/-- `traverseUpdates` over each subtree of a forest, in order. -/
def forestUpdates : UIForest → List NodeUpdate
  | UIForest.nil => []
  | UIForest.cons t ts => traverseUpdates t ++ forestUpdates ts

end

mutual

/-- The identities of the UI nodes of a subtree, in preorder. -/
def uiIds : UITree → List Nat
  | UITree.node i ui cs => (if ui then [i] else []) ++ forestIds cs

/-- `uiIds` over each subtree of a forest, in order. -/
def forestIds : UIForest → List Nat
  | UIForest.nil => []
  | UIForest.cons t ts => uiIds t ++ forestIds ts

end

/-- Embedding of `getHighestParent()` (MeshUIComponent.js): follow parent
links while the parent is a UI node; the node reached is the highest
ancestor. -/
def getHighestParent (selfId : Nat) : List (Nat × Bool) → Nat
  | [] => selfId
  | (pid, pui) :: rest => if pui then getHighestParent pid rest else selfId

/-- `this.fontFamily = font` performed by `_updateFontFamily`. -/
def updateFontFamilyAttrs (n : UINode) (font : JSVal) : UINode :=
  withAttr n "fontFamily" font

/-- The update requests issued by `_updateFontFamily(font)`
(MeshUIComponent.js): the preorder descendant walk requesting
(true, true, false) on every UI node of the subtree, then
(false, true, false) on the highest ancestor. -/
def updateFontFamilyTrace (t : UITree) (anc : List (Nat × Bool)) :
    List NodeUpdate :=
  traverseUpdates t ++
    [NodeUpdate.upd (getHighestParent (rootId t) anc) false true false]

/-- `this.fontTexture = texture` performed by `_updateFontTexture`. -/
def updateFontTextureAttrs (n : UINode) (tex : JSVal) : UINode :=
  withAttr n "fontTexture" tex

/-- The update requests issued by `_updateFontTexture(texture)`
(MeshUIComponent.js): only the (false, true, false) request on the highest
ancestor; no descendant walk. -/
def updateFontTextureTrace (t : UITree) (anc : List (Nat × Bool)) :
    List NodeUpdate :=
  [NodeUpdate.upd (getHighestParent (rootId t) anc) false true false]

mutual

theorem traverseUpdates_eq (t : UITree) :
    traverseUpdates t
      = (uiIds t).map (fun i => NodeUpdate.upd i true true false) := by
  cases t with
  | node i ui cs =>
    rw [traverseUpdates, uiIds, List.map_append, forestUpdates_eq cs]
    cases ui <;> rfl

theorem forestUpdates_eq (ts : UIForest) :
    forestUpdates ts
      = (forestIds ts).map (fun i => NodeUpdate.upd i true true false) := by
  cases ts with
  | nil => rfl
  | cons t rest =>
    rw [forestUpdates, forestIds, List.map_append, traverseUpdates_eq t,
      forestUpdates_eq rest]

end

/-- C5: when font-family resolution completes, the callback installs the
resolved font as the node's local `fontFamily`, requests
(parsing=true, layout=true, inner=false) on every UI node of the node's
subtree (in preorder), and then requests (parsing=false, layout=true,
inner=false) on the highest ancestor; when only a font texture resolves,
the texture is installed, the descendant walk is skipped, and only the
highest-ancestor layout request is made. -/
theorem claim_C5 (n : UINode) (font tex : JSVal) (t : UITree)
    (anc : List (Nat × Bool)) :
    (updateFontFamilyAttrs n font).attrs "fontFamily" = font ∧
    updateFontFamilyTrace t anc
      = (uiIds t).map (fun i => NodeUpdate.upd i true true false) ++
        [NodeUpdate.upd (getHighestParent (rootId t) anc) false true false] ∧
    (updateFontTextureAttrs n tex).attrs "fontTexture" = tex ∧
    updateFontTextureTrace t anc
      = [NodeUpdate.upd (getHighestParent (rootId t) anc)
          false true false] := by
  refine ⟨?_, ?_, ?_, rfl⟩
  · simp [updateFontFamilyAttrs, withAttr, setAttr]
  · rw [updateFontFamilyTrace, traverseUpdates_eq]
  · simp [updateFontTextureAttrs, withAttr, setAttr]

----------------------------------------------------------------
-- C6: `getClippingPlanes`.
--
-- A node in this model carries the fields the method reads.
-- Modelled from the spec: `getHeight`/`getWidth` (defined by the
-- Block/InlineBlock components, outside the provided sources) are
-- modelled, following the spec's "sized to parent extent minus
-- parent padding", as returning the node's extent fields; the
-- host's world-transform application (THREE `Plane.applyMatrix4`
-- with `parent.matrixWorld`) is abstracted by tagging each plane
-- with the identity of the matrix applied to it.
----------------------------------------------------------------

/-- A node as read by `getClippingPlanes`: UI/block tags, the
`hiddenOverflow` attribute (`undefined` when unset), extent, padding
(`none` when unset), and the identity of its current world matrix. -/
structure CNode where
  isUI : Bool
  isBlock : Bool
  hiddenOverflow : JSVal
  height : ℚ
  width : ℚ
  padding : Option ℚ
  matrixWorld : Nat

/-- Modelled from the spec: the node's vertical extent (`getHeight`,
defined outside the provided sources). -/
def getHeight (n : CNode) : ℚ := n.height

/-- Modelled from the spec: the node's horizontal extent (`getWidth`,
defined outside the provided sources). -/
def getWidth (n : CNode) : ℚ := n.width

/-- `(this.padding || 0)`: JS truthiness sends both an unset and a zero
padding to `0`. -/
def paddingOrZero (n : CNode) : ℚ := n.padding.getD 0

/-- `getHiddenOverflow()` on a `CNode`: the stored attribute, or the
process-wide default `d` when unset. -/
def getHiddenOverflowOn (d : JSVal) (n : CNode) : JSVal :=
  if n.hiddenOverflow = JSVal.undefined then d else n.hiddenOverflow

/-- A clip plane: its (axis-aligned) normal, its constant, and the
identity of the world matrix applied to it. -/
structure ClipPlane where
  nx : Int
  ny : Int
  nz : Int
  constant : ℚ
  matrix : Nat
deriving DecidableEq

/-- The four local half-spaces built by `getClippingPlanes` from the
parent: top/bottom sized to `parent.getHeight()/2 - (parent.padding || 0)`,
left/right to `parent.getWidth()/2 - (parent.padding || 0)`, each
transformed by `parent.matrixWorld`. -/
def localClipPlanes (parent : CNode) : List ClipPlane :=
  [ClipPlane.mk 0 1 0 (getHeight parent / 2 - paddingOrZero parent)
     parent.matrixWorld,
   ClipPlane.mk 0 (-1) 0 (getHeight parent / 2 - paddingOrZero parent)
     parent.matrixWorld,
   ClipPlane.mk 1 0 0 (getWidth parent / 2 - paddingOrZero parent)
     parent.matrixWorld,
   ClipPlane.mk (-1) 0 0 (getWidth parent / 2 - paddingOrZero parent)
     parent.matrixWorld]

/-- Embedding of `getClippingPlanes()` (MeshUIComponent.js) over the
node's ancestor chain (nearest parent first): if the parent is a UI node,
push the four local planes when `this.isBlock &&
this.parent.getHiddenOverflow()`, then, if the grandparent is also a UI
node, append the parent's own composited planes. -/
def getClippingPlanes (d : JSVal) : CNode → List CNode → List ClipPlane
  | _, [] => []
  | self, parent :: rest =>
    if parent.isUI = true then
      (if self.isBlock = true ∧ truthy (getHiddenOverflowOn d parent) = true
       then localClipPlanes parent
       else []) ++
      (match rest with
       | [] => []
       | g :: _ => if g.isUI = true then getClippingPlanes d parent rest
         else [])
    else []

/-- C6: the planes returned for a node are exactly the four local
half-spaces (present exactly when the node's role includes block layout,
its parent is a UI node, and the parent has overflow clipping enabled —
sized to the parent's extent minus its padding and transformed by the
parent's world matrix) followed by the parent's own composited planes
whenever the parent is a UI node — hence, recursively, the planes of every
UI ancestor up the parent chain are contained in the result. -/
theorem claim_C6 (d : JSVal) (self parent : CNode) (rest : List CNode) :
    getClippingPlanes d self (parent :: rest)
      = (if self.isBlock = true ∧ parent.isUI = true ∧
            truthy (getHiddenOverflowOn d parent) = true then
          localClipPlanes parent
        else []) ++
        (if parent.isUI = true then getClippingPlanes d parent rest
         else []) := by
  by_cases hp : parent.isUI = true
  · cases rest with
    | nil => simp [getClippingPlanes, hp]
    | cons g r =>
      by_cases hg : g.isUI = true
      · simp [getClippingPlanes, hp, hg]
      · simp [getClippingPlanes, hp, hg]
  · simp [getClippingPlanes, hp]

end MeshUI
